import Mathlib

/-!
Verification of the IRIG 106 Chapter 10 packet-stream reader
(`src/python/Py106/Packet.py`) against its natural-language specification.

The Python module is a thin wrapper over a native library (`irig106.dll` /
`libirig106.so`): the pure parts (the `Header` ctypes layout, the
`DataType.TypeName` table, the `packet_headers` generator, the buffer-growth
logic of `read_data`) are embedded directly from the source; the native
library's entry points (`enI106Ch10Open`, `enI106Ch10ReadNextHeader`,
`enI106Ch10ReadData`, `enI106Ch10SetPos`, `enI106Ch10GetPos`, ...) are not in
the repository and are modelled from the specification where a claim needs
them.  Bytes are `Nat < 256`, byte strings are `List Nat`, machine integers
are `Nat` with explicit `% 2 ^ w` where wraparound matters.
-/

namespace Py106

/-- Modelled from the spec: the `StatusCode` vocabulary of `Py106.Status`
(the module is imported by the source but is not in the repository).  §6 lists
the values consumed by callers: `OK`, `EndOfFile`, `BeginningOfFile`,
`FormatError`, `ShortRead`, `NotFound`, `AccessDenied`, `InvalidHandle`;
`BufferOverrun` is the native library's status for a caller buffer smaller
than the packet's data, kept here so the data-read model is total. -/
inductive Status where
  | OK
  | EndOfFile
  | BeginningOfFile
  | FormatError
  | ShortRead
  | NotFound
  | AccessDenied
  | InvalidHandle
  | BufferOverrun
  deriving DecidableEq, Repr

/-- The field values of an IRIG 106 packet header, one Lean field per ctypes
field of class `Header` in the source (primary header fields first, then the
secondary-header fields that the fixed-size ctypes structure always carries).
`RefTime` is 6 bytes, `Time` is two 32-bit words. -/
structure Header where
  Sync        : Nat
  ChID        : Nat
  PacketLen   : Nat
  DataLen     : Nat
  HdrVer      : Nat
  SeqNum      : Nat
  PacketFlags : Nat
  DataType    : Nat
  RefTime     : List Nat
  Checksum    : Nat
  Time        : List Nat
  Reserved    : Nat
  SecChecksum : Nat
  deriving DecidableEq, Repr

instance : Inhabited Header :=
  ⟨{ Sync := 0, ChID := 0, PacketLen := 0, DataLen := 0, HdrVer := 0, SeqNum := 0,
     PacketFlags := 0, DataType := 0, RefTime := [0, 0, 0, 0, 0, 0], Checksum := 0,
     Time := [0, 0], Reserved := 0, SecChecksum := 0 }⟩

/-- The ctypes field list of class `Header` in the source, as (name, byte
size) pairs: `c_uint16` is 2 bytes, `c_uint32` is 4, `c_uint8` is 1,
`c_uint8 * 6` is 6, `c_uint32 * 2` is 8.  With `_pack_ = 1` there is no
padding, so a field's offset is the sum of the sizes before it. -/
def headerFields : List (String × Nat) :=
  [("Sync", 2), ("ChID", 2), ("PacketLen", 4), ("DataLen", 4),
   ("HdrVer", 1), ("SeqNum", 1), ("PacketFlags", 1), ("DataType", 1),
   ("RefTime", 6), ("Checksum", 2),
   ("Time", 8), ("Reserved", 2), ("SecChecksum", 2)]

/-- Byte offset of a named field in the packed `Header` structure: the sum of
the sizes of the fields before it (1-byte alignment, `_pack_ = 1`). -/
def fieldOffset (n : String) : Nat :=
  ((headerFields.takeWhile (fun f => f.1 != n)).map Prod.snd).sum

/-- Total byte size of the packed `Header` ctypes structure. -/
def headerStructSize : Nat := (headerFields.map Prod.snd).sum

/-- Byte size of the primary header: everything before the `Time` field. -/
def primaryHeaderSize : Nat := fieldOffset "Time"

/-- Byte size of the secondary header: the trailing `Time`, `Reserved`,
`SecChecksum` fields. -/
def secondaryHeaderSize : Nat := headerStructSize - primaryHeaderSize

namespace DataType

/-- The code → display-name dictionary of `DataType.TypeName` in the source,
one entry per line of the Python dict literal, in source order, with each
symbolic key replaced by its numeric value from the `DataType` class. -/
def typeNameTable : List (Nat × String) :=
  [(0x00, "User Defined"),
   (0x01, "TMATS"),
   (0x02, "Event"),
   (0x03, "Index"),
   (0x04, "Computer Generated 4"),
   (0x05, "Computer Generated 5"),
   (0x06, "Computer Generated 6"),
   (0x07, "Computer Generated 7"),
   (0x08, "PCM Format 0"),
   (0x09, "PCM Format 1"),
   (0x11, "Time"),
   (0x19, "1553"),
   (0x1A, "16PP194"),
   (0x21, "Analog"),
   (0x29, "Discrete"),
   (0x30, "Message"),
   (0x38, "ARINC 429"),
   (0x40, "Video Format 0"),
   (0x41, "Video Format 1"),
   (0x42, "Video Format 2"),
   (0x48, "Image Format 0"),
   (0x49, "Image Format 1"),
   (0x50, "UART"),
   (0x58, "IEEE 1394 Format 0"),
   (0x59, "IEEE 1394 Format 1"),
   (0x60, "Parallel"),
   (0x68, "Ethernet"),
   (0x78, "CAN Bus"),
   (0x79, "Fibre Channel Format 0"),
   (0x7A, "Fibre Channel Format 1")]

/-- Direct port of `DataType.TypeName` from the source:
`name.get(TypeNum, "Undefined")` — look the code up in the dictionary,
defaulting to `"Undefined"`. -/
def TypeName (TypeNum : Nat) : String :=
  (typeNameTable.lookup TypeNum).getD "Undefined"

/-- The key set of the dictionary. -/
def typeNameKeys : List Nat := typeNameTable.map Prod.fst

end DataType

/-!
The `packet_headers` generator.  The native `enI106Ch10ReadNextHeader` is
opaque to the Python layer; for the generator's logic a stream is the list of
outcomes of successive `read_next_header` calls: the status each call
returned and the `Header` value it left in the shared `self.Header` object.
Once the list is exhausted further calls return `EndOfFile` with the header
unchanged (a file keeps reporting end-of-file at its end).
-/

/-- Outcome of one `read_next_header` call: returned status and the value
left in `self.Header`. -/
abbrev ReadOutcome := Status × Header

/-- The `packet_headers` generator body (source lines 253-259): call
`read_next_header`; while it returns `OK`, yield the current header when
`ch_ids` is empty or contains its `ChID`, then call `read_next_header`
again.  The value is the list of yielded header values; the loop is left on
any non-`OK` status and the generator finishes by normal `StopIteration`. -/
def packet_headers (ch_ids : List Nat) : List ReadOutcome → List Header
  | [] => []
  | (st, h) :: rest =>
    if st = Status.OK then
      if ch_ids.isEmpty || ch_ids.contains h.ChID then
        h :: packet_headers ch_ids rest
      else
        packet_headers ch_ids rest
    else []

/-- Manual repeated reads (the explicit while-loop shown in the module's
main block): call `read_next_header`, stop at the first non-`OK` status,
collect the header of every `OK` read, in file order. -/
def manualHeaders : List ReadOutcome → List Header
  | [] => []
  | (st, h) :: rest => if st = Status.OK then h :: manualHeaders rest else []

/-- Full observable outcome of draining the `packet_headers` generator:
`Except.ok` with the yielded headers when the generator completes normally
(`StopIteration`), `Except.error` if it were to raise.  The source generator
has no raise path — it leaves its `while` loop on any non-`OK` status — so
the outcome is always `Except.ok`. -/
def packetHeadersOutcome (ch_ids : List Nat) (reads : List ReadOutcome) :
    Except Status (List Header) :=
  Except.ok (packet_headers ch_ids reads)

/-- Modelled from the spec (§4.5 PacketIterator), for comparison with the
source generator: repeatedly invoke `readNextHeader`; when it returns `OK`,
yield the current header if the filter is empty or contains its `ChID`; stop
without error on `EndOfFile`; propagate any other status as a terminal
failure of the sequence. -/
def iterateSpec (ch_ids : List Nat) : List ReadOutcome → Except Status (List Header)
  | [] => Except.ok []
  | (st, h) :: rest =>
    if st = Status.OK then
      match iterateSpec ch_ids rest with
      | Except.ok hs =>
          Except.ok (if ch_ids.isEmpty || ch_ids.contains h.ChID then h :: hs else hs)
      | Except.error e => Except.error e
    else if st = Status.EndOfFile then Except.ok []
    else Except.error st

/-- Value of the single shared `self.Header` object after the generator's
run, paired with the number of yields: every `read_next_header` call
overwrites the object in place, and the generator stops consuming after the
first non-`OK` read (which still overwrote the object). -/
def runSlot (init : Header) (ch_ids : List Nat) : List ReadOutcome → Header × Nat
  | [] => (init, 0)
  | (st, h) :: rest =>
    if st = Status.OK then
      let r := runSlot h ch_ids rest
      if ch_ids.isEmpty || ch_ids.contains h.ChID then (r.1, r.2 + 1) else r
    else (h, 0)

/-- What a caller who stored every yielded item observes once the run is
over: each yield of `packet_headers` is `self.Header` itself — a reference
to the one shared mutable object, not a copy — so every stored item shows
the object's final field values. -/
def storedHeadersAfterRun (init : Header) (ch_ids : List Nat)
    (reads : List ReadOutcome) : List Header :=
  List.replicate (runSlot init ch_ids reads).2 (runSlot init ch_ids reads).1

/-- Header value with a given channel id and defaults elsewhere, for
concrete streams in examples. -/
def mkHdr (chid : Nat) : Header :=
  { (default : Header) with ChID := chid }

/-- Concrete stream of five `OK` reads with channel ids 1, 5, 5, 2, 5. -/
def exampleReads : List ReadOutcome :=
  [(Status.OK, mkHdr 1), (Status.OK, mkHdr 5), (Status.OK, mkHdr 5),
   (Status.OK, mkHdr 2), (Status.OK, mkHdr 5)]

/-!
The stream model.  The native library behind `I106_Ch10ReadNextHeader`,
`I106_Ch10ReadData`, `I106_Ch10SetPos`, `I106_Ch10GetPos`, ... is not in the
repository, so the byte-level behavior is modelled from the specification,
while the Python-layer logic (`read_data`'s buffer growth, `open`'s ASCII
encoding) is embedded from the source.
-/

/-- The fixed sync pattern `0xEB25`. -/
def syncPattern : Nat := 0xEB25

/-- Little-endian 16-bit value at byte offset `i` of a byte list. -/
def le16 (bs : List Nat) (i : Nat) : Nat :=
  bs.getD i 0 + 256 * bs.getD (i + 1) 0

/-- Little-endian 32-bit value at byte offset `i` of a byte list. -/
def le32 (bs : List Nat) (i : Nat) : Nat :=
  bs.getD i 0 + 256 * bs.getD (i + 1) 0 +
    65536 * bs.getD (i + 2) 0 + 16777216 * bs.getD (i + 3) 0

/-- Modelled from the spec (§4.3 ChecksumValidator): sum the buffer as
consecutive little-endian 16-bit words, an odd trailing byte zero-extended,
truncating to 16 bits. -/
def sum16 : List Nat → Nat
  | [] => 0
  | [b] => b % 65536
  | b0 :: b1 :: rest => (b0 + 256 * b1 + sum16 rest) % 65536

/-- Decode the fixed-size `Header` structure from the bytes at the front of
`bs`: every multi-byte field little-endian, at the packed offsets of
`headerFields` (the native library casts the bytes onto the fixed ctypes
structure). -/
def decodeHeader (bs : List Nat) : Header where
  Sync := le16 bs 0
  ChID := le16 bs 2
  PacketLen := le32 bs 4
  DataLen := le32 bs 8
  HdrVer := bs.getD 12 0
  SeqNum := bs.getD 13 0
  PacketFlags := bs.getD 14 0
  DataType := bs.getD 15 0
  RefTime := (bs.drop 16).take 6
  Checksum := le16 bs 22
  Time := [le32 bs 24, le32 bs 28]
  Reserved := le16 bs 32
  SecChecksum := le16 bs 34

/-- Secondary-header presence: primary-header flag bit 7, i.e.
`PacketFlags & 0x80 ≠ 0` (§6). -/
def hasSecondaryHeader (flags : Nat) : Bool :=
  flags &&& 0x80 != 0

/-- Effective header length: the 24 primary bytes, plus the 12 secondary
bytes exactly when the secondary header is present. -/
def headerLen (flags : Nat) : Nat :=
  if hasSecondaryHeader flags then 36 else 24

/-- Modelled from the spec (§4.4 PacketStream): the state behind an `IO`
object and its native stream handle — the open flag, the recording's bytes,
the cursor (byte offset of the next header to read), the start offset of the
packet whose header was decoded last, the value of the shared `self.Header`
object, and the capacity of `self.Buffer` (`Buffer._length_`). -/
structure IOState where
  isOpen : Bool
  data : List Nat
  cursor : Nat
  pktStart : Nat
  header : Header
  bufCap : Nat
  deriving DecidableEq, Repr

/-- Modelled from the spec (§4.4 readNextHeader): decode a header at the
cursor.  `EndOfFile` when no bytes remain; `FormatError` — with the whole
state, in particular the cursor, unchanged — when fewer than 24 bytes
remain, the sync pattern does not match, or the checksum differs from the
word-sum of the 22 preceding primary-header bytes; otherwise `OK`, storing
the decoded header, remembering the packet's start and advancing the cursor
past `PacketLen`. -/
def read_next_header (s : IOState) : Status × IOState :=
  if !s.isOpen then (Status.InvalidHandle, s)
  else
    let rem := s.data.drop s.cursor
    if rem.isEmpty then (Status.EndOfFile, s)
    else if rem.length < primaryHeaderSize then (Status.FormatError, s)
    else
      let h := decodeHeader rem
      if h.Sync ≠ syncPattern then (Status.FormatError, s)
      else if h.Checksum ≠ sum16 (rem.take 22) then (Status.FormatError, s)
      else (Status.OK,
        { s with header := h, pktStart := s.cursor, cursor := s.cursor + h.PacketLen })

/-- Check for a valid packet header at offset `o` of `data`: at least 24
bytes remain, the sync pattern matches, the checksum verifies. -/
def validHeaderAt (data : List Nat) (o : Nat) : Bool :=
  let rem := data.drop o
  decide (primaryHeaderSize ≤ rem.length) &&
    decide ((decodeHeader rem).Sync = syncPattern) &&
    decide ((decodeHeader rem).Checksum = sum16 (rem.take 22))

/-- Modelled from the spec (§4.4 readPrevHeader, resynchronization strategy
(b)): scan backward from the last packet's start for a valid header whose
`PacketLen` lands exactly on that start; `BeginningOfFile` when there is
none. -/
def read_prev_header (s : IOState) : Status × IOState :=
  if !s.isOpen then (Status.InvalidHandle, s)
  else
    match (List.range s.pktStart).reverse.find?
        (fun o => validHeaderAt s.data o &&
          decide (o + (decodeHeader (s.data.drop o)).PacketLen = s.pktStart)) with
    | some o =>
        (Status.OK, { s with header := decodeHeader (s.data.drop o),
                             pktStart := o, cursor := s.pktStart })
    | none => (Status.BeginningOfFile, s)

/-- Modelled from the spec (§4.4 readData, native side): read the current
packet's `DataLen` payload bytes, which start immediately after the primary
and, when present, secondary header; `ShortRead` when the recording holds
fewer bytes than declared, `BufferOverrun` when the caller's buffer is
smaller than the payload. -/
def enI106Ch10ReadData (s : IOState) (buff_size : Nat) : Status × List Nat :=
  if !s.isOpen then (Status.InvalidHandle, [])
  else
    let off := s.pktStart + headerLen s.header.PacketFlags
    if s.data.length < off + s.header.DataLen then (Status.ShortRead, [])
    else if buff_size < s.header.DataLen then (Status.BufferOverrun, [])
    else (Status.OK, (s.data.drop off).take s.header.DataLen)

/-- Source `read_data` (lines 246-251): if `self.Header.PacketLen` exceeds
`self.Buffer._length_`, reallocate the buffer at capacity `PacketLen`; then
have the native library read the packet data, passing the buffer's capacity.
Returns the status, the new state, and the bytes placed in the buffer. -/
def read_data (s : IOState) : Status × IOState × List Nat :=
  let cap := if s.header.PacketLen > s.bufCap then s.header.PacketLen else s.bufCap
  let s' := { s with bufCap := cap }
  let r := enI106Ch10ReadData s' cap
  (r.1, s', r.2)

/-- Modelled from the spec (§4.4 setPos): set the cursor directly; no
boundary validation until the next read. -/
def set_pos (s : IOState) (offset : Nat) : Status × IOState :=
  if s.isOpen then (Status.OK, { s with cursor := offset })
  else (Status.InvalidHandle, s)

/-- Modelled from the spec (§4.4 getPos): report the current cursor value,
always `OK` while the stream is open. -/
def get_pos (s : IOState) : Status × Nat :=
  if s.isOpen then (Status.OK, s.cursor) else (Status.InvalidHandle, 0)

/-- Modelled from the spec (§4.4 first): reposition the cursor to the first
packet of the stream. -/
def first (s : IOState) : Status × IOState :=
  if s.isOpen then (Status.OK, { s with cursor := 0 })
  else (Status.InvalidHandle, s)

/-- Offsets of the chain of valid packets starting at offset `o`, stepping
by each packet's `PacketLen`; fuel-bounded by the recording's length. -/
def chainOffsets (data : List Nat) : Nat → Nat → List Nat
  | 0, _ => []
  | fuel + 1, o =>
    if validHeaderAt data o then
      o :: chainOffsets data fuel (o + max 1 (decodeHeader (data.drop o)).PacketLen)
    else []

/-- Modelled from the spec (§4.4 last): reposition the cursor to the last
packet of the stream, found by walking the packet chain from the start. -/
def last (s : IOState) : Status × IOState :=
  if !s.isOpen then (Status.InvalidHandle, s)
  else
    match (chainOffsets s.data (s.data.length + 1) 0).getLast? with
    | some o => (Status.OK, { s with cursor := o })
    | none => (Status.EndOfFile, s)

/-- Modelled from the spec (§4.4 close): release the stream handle;
idempotent. -/
def close (s : IOState) : Status × IOState :=
  (Status.OK, { s with isOpen := false })

namespace FileMode

/-- Source `FileMode.CLOSED`. -/
def CLOSED : Nat := 0

/-- Source `FileMode.READ`. -/
def READ : Nat := 1

/-- Source `FileMode.OVERWRITE`. -/
def OVERWRITE : Nat := 2

/-- Source `FileMode.APPEND`. -/
def APPEND : Nat := 3

/-- Source `FileMode.READ_IN_ORDER`. -/
def READ_IN_ORDER : Nat := 4

/-- Source `FileMode.READ_NET_STREAM`. -/
def READ_NET_STREAM : Nat := 5

end FileMode

/-- Python `str.encode('ascii')` on a string of code points: the byte string
itself when every code point is below 128; raises `UnicodeEncodeError`
(modelled as `Except.error`) otherwise. -/
def encodeAscii (name : List Nat) : Except Unit (List Nat) :=
  if name.all (fun c => c < 128) then Except.ok name else Except.error ()

/-- Modelled from the spec (§4.4 open, read side): the native open over a
filesystem of (name bytes, contents) pairs.  `READ` mode opens an existing
file at offset 0 and reports `NotFound` for a missing one; the write modes
open an empty stream.  Returns the status, the open flag and the stream's
bytes. -/
def enI106Ch10Open (fs : List (List Nat × List Nat)) (name_bytes : List Nat)
    (file_mode : Nat) : Status × Bool × List Nat :=
  if file_mode = FileMode.READ then
    match fs.lookup name_bytes with
    | some contents => (Status.OK, true, contents)
    | none => (Status.NotFound, false, [])
  else (Status.OK, true, [])

/-- Source `I106_Ch10Open` (lines 134-144): `file_name.encode('ascii')` —
which raises `UnicodeEncodeError` on a non-ASCII name — then the native
open.  On normal return, the status together with the handle's state. -/
def I106_Ch10Open (fs : List (List Nat × List Nat)) (file_name : List Nat)
    (file_mode : Nat) : Except Unit (Status × Bool × List Nat) :=
  match encodeAscii file_name with
  | Except.error e => Except.error e
  | Except.ok bytes => Except.ok (enI106Ch10Open fs bytes file_mode)

/-- Source `IO.open` (lines 226-229): forwards to `I106_Ch10Open` and
installs the returned handle; the `Header` object and the payload buffer of
the `IO` object are untouched.  An exception raised by the ASCII encode
propagates to the caller. -/
def openStream (fs : List (List Nat × List Nat)) (s : IOState)
    (file_name : List Nat) (file_mode : Nat) : Except Unit (Status × IOState) :=
  match I106_Ch10Open fs file_name file_mode with
  | Except.error e => Except.error e
  | Except.ok r =>
      Except.ok (r.1,
        { s with isOpen := r.2.1, data := r.2.2, cursor := 0, pktStart := 0 })

/-- The core operations on a stream, for stating stream-wide invariants. -/
inductive Op where
  | openF (fs : List (List Nat × List Nat)) (name : List Nat) (mode : Nat)
  | close
  | readNext
  | readPrev
  | readData
  | first
  | last
  | setPos (p : Nat)
  | getPos
  deriving Repr

/-- State transition of one core operation (the returned status and bytes
are dropped; an exception raised by `open`'s encode leaves the state as it
was). -/
def stepOp : Op → IOState → IOState
  | Op.openF fs name mode, s =>
      match openStream fs s name mode with
      | Except.ok r => r.2
      | Except.error _ => s
  | Op.close, s => (close s).2
  | Op.readNext, s => (read_next_header s).2
  | Op.readPrev, s => (read_prev_header s).2
  | Op.readData, s => (read_data s).2.1
  | Op.first, s => (first s).2
  | Op.last, s => (last s).2
  | Op.setPos p, s => (set_pos s p).2
  | Op.getPos, s => s

/-- Run a sequence of core operations from a state. -/
def runOps (ops : List Op) (s : IOState) : IOState :=
  ops.foldl (fun st op => stepOp op st) s

/-- Fresh `IO()` object state right after construction, before `open`:
handle invalid, empty zero-capacity buffer. -/
def freshState : IOState :=
  { isOpen := false, data := [], cursor := 0, pktStart := 0,
    header := default, bufCap := 0 }

/-- Open stream over a 24-byte recording whose sync pattern is valid
(`0x25, 0xEB` little-endian) but whose checksum field (zero) disagrees with
the word-sum of the first 22 bytes (`0xEB25`): a corrupt packet. -/
def corruptState : IOState :=
  { isOpen := true, data := [0x25, 0xEB] ++ List.replicate 22 0, cursor := 0,
    pktStart := 0, header := default, bufCap := 0 }

/-- Open stream positioned after decoding a packet with `PacketLen = 28`,
`DataLen = 4` and no secondary header, whose four payload bytes follow the
24 header bytes. -/
def payloadState : IOState :=
  { isOpen := true,
    data := List.replicate 24 0 ++ [10, 20, 30, 40],
    cursor := 28, pktStart := 0,
    header := { (default : Header) with PacketLen := 28, DataLen := 4 },
    bufCap := 0 }

/-- Small open stream for the positioning witness. -/
def seekState : IOState :=
  { isOpen := true, data := [1, 2, 3], cursor := 0, pktStart := 0,
    header := default, bufCap := 0 }

/-!
Theorems.  Shared lemmas first, then one theorem per claim.
-/

/-- The generator's yields are exactly the headers of the manual read loop,
filtered by channel id (with the empty filter passing everything). -/
theorem packet_headers_eq_filter_manual (ch_ids : List Nat) (reads : List ReadOutcome) :
    packet_headers ch_ids reads =
      (manualHeaders reads).filter
        (fun h => ch_ids.isEmpty || ch_ids.contains h.ChID) := by
  induction reads with
  | nil => rfl
  | cons r rest ih =>
    obtain ⟨st, h⟩ := r
    by_cases hst : st = Status.OK
    · subst hst
      by_cases hf : (ch_ids.isEmpty || ch_ids.contains h.ChID) = true
      · simp [packet_headers, manualHeaders, hf, ih, List.filter_cons]
      · simp [packet_headers, manualHeaders, hf, ih, List.filter_cons]
    · simp [packet_headers, manualHeaders, hst]

/-- The generator's yield count equals the length of its yield list,
whatever header value the shared object held initially. -/
theorem runSlot_snd (init : Header) (ch_ids : List Nat) (reads : List ReadOutcome) :
    (runSlot init ch_ids reads).2 = (packet_headers ch_ids reads).length := by
  induction reads generalizing init with
  | nil => rfl
  | cons r rest ih =>
    obtain ⟨st, h⟩ := r
    by_cases hst : st = Status.OK
    · subst hst
      by_cases hf : ch_ids = [] ∨ h.ChID ∈ ch_ids
      · simp [runSlot, packet_headers, hf, ih]
      · simp [runSlot, packet_headers, hf, ih]
    · simp [runSlot, packet_headers, hst]

/-- C1 (amended): the iterator yields the current header after each
`read_next_header` call that returns `OK` and passes the channel filter, and
the generator completes normally — stopping without error — on every
non-`OK` status, `EndOfFile` and `FormatError`/`InvalidHandle`/`ShortRead`
alike; no status is propagated as a terminal failure of the sequence. -/
theorem packet_headers_stops_silently_on_any_error (ch_ids : List Nat)
    (reads : List ReadOutcome) :
    packetHeadersOutcome ch_ids reads =
      Except.ok ((manualHeaders reads).filter
        (fun h => ch_ids.isEmpty || ch_ids.contains h.ChID)) := by
  unfold packetHeadersOutcome
  rw [packet_headers_eq_filter_manual]

/-- C1 counterexample: on a stream whose first read fails with
`FormatError`, the spec's iterator contract terminates the sequence with a
failure, while the source generator ends silently with no yields and a
normal `StopIteration` — it does not propagate the status. -/
theorem packet_headers_propagation_counterexample :
    iterateSpec [] [(Status.FormatError, default)] = Except.error Status.FormatError ∧
    packetHeadersOutcome [] [(Status.FormatError, default)] = Except.ok [] ∧
    packetHeadersOutcome [] [(Status.FormatError, default)] ≠
      iterateSpec [] [(Status.FormatError, default)] := by
  refine ⟨rfl, rfl, fun h => ?_⟩
  rw [show packetHeadersOutcome [] [(Status.FormatError, default)] = Except.ok [] from rfl,
      show iterateSpec [] [(Status.FormatError, default)]
        = Except.error Status.FormatError from rfl] at h
  exact Except.noConfusion h

/-- C5: with an empty channel filter the iterator yields exactly the manual
repeated `read_next_header` sequence in file order; with any filter a header
is yielded iff its `ChID` passes, relative order and multiplicity preserved;
in particular the filter {5} over a stream with channels 1, 5, 5, 2, 5
yields exactly 3 headers, all with `ChID = 5`, in original order. -/
theorem packet_headers_filter_semantics (ch_ids : List Nat)
    (reads : List ReadOutcome) :
    packet_headers [] reads = manualHeaders reads ∧
    packet_headers ch_ids reads =
      (manualHeaders reads).filter
        (fun h => ch_ids.isEmpty || ch_ids.contains h.ChID) ∧
    packet_headers [5] exampleReads = [mkHdr 5, mkHdr 5, mkHdr 5] ∧
    (packet_headers [5] exampleReads).length = 3 ∧
    (∀ h ∈ packet_headers [5] exampleReads, h.ChID = 5) := by
  refine ⟨?_, packet_headers_eq_filter_manual ch_ids reads, by decide, by decide, by decide⟩
  rw [packet_headers_eq_filter_manual]
  simp

/-- C10: every yield of the iterator is the stream's single shared mutable
`Header` object, not an independent copy: after the run every stored yield
shows the object's final field values (one stored item per yield), and in
the concrete two-packet stream both stored items equal the newest header
even though the two values at yield time differed. -/
theorem yielded_headers_share_one_object (init : Header) (ch_ids : List Nat)
    (reads : List ReadOutcome) :
    (∀ h ∈ storedHeadersAfterRun init ch_ids reads,
        h = (runSlot init ch_ids reads).1) ∧
    (storedHeadersAfterRun init ch_ids reads).length =
      (packet_headers ch_ids reads).length ∧
    packet_headers [] [(Status.OK, mkHdr 1), (Status.OK, mkHdr 2)] =
      [mkHdr 1, mkHdr 2] ∧
    storedHeadersAfterRun default [] [(Status.OK, mkHdr 1), (Status.OK, mkHdr 2)] =
      [mkHdr 2, mkHdr 2] ∧
    mkHdr 1 ≠ mkHdr 2 := by
  refine ⟨fun h hm => List.eq_of_mem_replicate hm, ?_, by decide, by decide, by decide⟩
  unfold storedHeadersAfterRun
  rw [List.length_replicate, runSlot_snd]

/-- Looking a key up in an association list whose key column does not
contain it gives `none`. -/
theorem lookup_eq_none_of_not_mem_keys (l : List (Nat × String)) (a : Nat)
    (h : a ∉ l.map Prod.fst) : l.lookup a = none := by
  induction l with
  | nil => rfl
  | cons p t ih =>
    obtain ⟨k, v⟩ := p
    simp only [List.map_cons, List.mem_cons] at h
    push_neg at h
    have hk : (a == k) = false := beq_eq_false_iff_ne.mpr h.1
    simp [List.lookup, hk, ih h.2]

/-- C3 counterexample: the number of u8 codes whose `TypeName` is not
`"Undefined"` is not 29 — the source dictionary has 30 entries. -/
theorem typeName_named_code_count_counterexample :
    ¬ ((List.range 256).filter
        (fun c => DataType.TypeName c != "Undefined")).length = 29 := by decide

/-- C3 (amended): `TypeName` is a total function that never fails; exactly
30 (not 29) distinct u8 codes map to a display name other than
`"Undefined"` — the dictionary's 30 distinct keys — and every code outside
them maps to the sentinel `"Undefined"`. -/
theorem typeName_total_thirty_codes :
    ((List.range 256).filter
        (fun c => DataType.TypeName c != "Undefined")).length = 30 ∧
    DataType.typeNameKeys.Nodup ∧
    DataType.typeNameKeys.length = 30 ∧
    (∀ c, DataType.TypeName c = "Undefined" ↔ c ∉ DataType.typeNameKeys) := by
  refine ⟨by decide, by decide, by decide, fun c => ⟨fun hu hmem => ?_, fun hmem => ?_⟩⟩
  · have : ∀ x ∈ DataType.typeNameKeys, DataType.TypeName x ≠ "Undefined" := by decide
    exact this c hmem hu
  · unfold DataType.TypeName
    rw [lookup_eq_none_of_not_mem_keys DataType.typeNameTable c hmem]
    rfl

/-- C4: the packed (`_pack_ = 1`, byte-aligned) header layout has the
primary fields at offsets 0, 2, 4, 8, 12, 13, 14, 15, 16, 22, a primary
header of exactly 24 bytes and a secondary header of exactly 12 bytes
immediately after it; the secondary header counts toward the effective
header length exactly when `PacketFlags` bit 7 (0x80) is set; and the
multi-byte fields are decoded little-endian at those offsets. -/
theorem header_layout_offsets :
    (["Sync", "ChID", "PacketLen", "DataLen", "HdrVer", "SeqNum", "PacketFlags",
      "DataType", "RefTime", "Checksum", "Time", "Reserved", "SecChecksum"].map
        fieldOffset = [0, 2, 4, 8, 12, 13, 14, 15, 16, 22, 24, 32, 34]) ∧
    primaryHeaderSize = 24 ∧ secondaryHeaderSize = 12 ∧ headerStructSize = 36 ∧
    (∀ flags, (hasSecondaryHeader flags = true ↔ flags &&& 0x80 ≠ 0)) ∧
    (∀ flags, headerLen flags =
      if flags &&& 0x80 ≠ 0 then primaryHeaderSize + secondaryHeaderSize
      else primaryHeaderSize) ∧
    (∀ bs, (decodeHeader bs).Sync = bs.getD 0 0 + 256 * bs.getD 1 0) ∧
    (∀ bs, (decodeHeader bs).PacketLen =
      bs.getD 4 0 + 256 * bs.getD 5 0 + 65536 * bs.getD 6 0 +
        16777216 * bs.getD 7 0) ∧
    (∀ bs, (decodeHeader bs).Checksum = bs.getD 22 0 + 256 * bs.getD 23 0) := by
  refine ⟨by decide, by decide, by decide, by decide,
    fun flags => by simp [hasSecondaryHeader, bne_iff_ne],
    fun flags => ?_, fun bs => rfl, fun bs => rfl, fun bs => rfl⟩
  by_cases hb : flags &&& 0x80 ≠ 0
  · simp only [headerLen, hasSecondaryHeader, if_pos hb]
    rw [if_pos]
    · decide
    · simpa [bne_iff_ne] using hb
  · simp only [headerLen, hasSecondaryHeader]
    rw [if_neg, if_neg hb]
    · decide
    · simpa [bne_iff_ne] using hb

/-- Reading a header never touches the payload buffer's capacity. -/
theorem bufCap_read_next (s : IOState) : ((read_next_header s).2).bufCap = s.bufCap := by
  unfold read_next_header
  simp only []
  split_ifs <;> rfl

/-- Backward reading never touches the payload buffer's capacity. -/
theorem bufCap_read_prev (s : IOState) : ((read_prev_header s).2).bufCap = s.bufCap := by
  unfold read_prev_header
  split_ifs
  · rfl
  · split <;> rfl

/-- Source growth rule of `read_data`: the new capacity is the old one, or
`PacketLen` when that is larger. -/
theorem bufCap_read_data (s : IOState) :
    ((read_data s).2.1).bufCap = max s.bufCap s.header.PacketLen := by
  unfold read_data
  dsimp only
  split_ifs with h <;> omega

/-- Opening never touches the payload buffer's capacity (the Python `open`
replaces only the handle). -/
theorem bufCap_openStream (fs : List (List Nat × List Nat)) (s : IOState)
    (name : List Nat) (mode : Nat) (st : Status) (s' : IOState)
    (h : openStream fs s name mode = Except.ok (st, s')) : s'.bufCap = s.bufCap := by
  unfold openStream at h
  cases hI : I106_Ch10Open fs name mode with
  | error e => rw [hI] at h; exact Except.noConfusion h
  | ok r => rw [hI] at h; cases h; rfl

/-- No single core operation shrinks the payload buffer's capacity. -/
theorem bufCap_stepOp (op : Op) (s : IOState) : s.bufCap ≤ (stepOp op s).bufCap := by
  cases op with
  | openF fs name mode =>
      show s.bufCap ≤ (match openStream fs s name mode with
        | Except.ok r => r.2
        | Except.error _ => s).bufCap
      cases hI : openStream fs s name mode with
      | error e => exact Nat.le_refl _
      | ok r => exact (bufCap_openStream fs s name mode r.1 r.2 hI).ge
  | close => exact Nat.le_refl _
  | readNext => rw [show stepOp Op.readNext s = (read_next_header s).2 from rfl,
      bufCap_read_next]
  | readPrev => rw [show stepOp Op.readPrev s = (read_prev_header s).2 from rfl,
      bufCap_read_prev]
  | readData =>
      rw [show stepOp Op.readData s = (read_data s).2.1 from rfl, bufCap_read_data]
      exact Nat.le_max_left _ _
  | first =>
      rw [show stepOp Op.first s = (Py106.first s).2 from rfl]
      unfold Py106.first
      split_ifs <;> exact Nat.le_refl _
  | last =>
      rw [show stepOp Op.last s = (last s).2 from rfl]
      unfold last
      split_ifs
      · exact Nat.le_refl _
      · split <;> exact Nat.le_refl _
  | setPos p =>
      rw [show stepOp (Op.setPos p) s = (set_pos s p).2 from rfl]
      unfold set_pos
      split_ifs <;> exact Nat.le_refl _
  | getPos => exact Nat.le_refl _

/-- No sequence of core operations shrinks the payload buffer's capacity. -/
theorem bufCap_runOps (ops : List Op) (s : IOState) : s.bufCap ≤ (runOps ops s).bufCap := by
  induction ops generalizing s with
  | nil => exact Nat.le_refl _
  | cons op rest ih => exact le_trans (bufCap_stepOp op s) (ih (stepOp op s))

/-- C6: the payload buffer's capacity is monotonically non-decreasing —
every core operation and every sequence of them leaves it at least as
large, and `read_data` sets it to the maximum of the old capacity and the
size the current packet requires, so it reallocates only to a strictly
larger capacity and afterwards the capacity covers every size ever
required. -/
theorem buffer_capacity_monotone :
    (∀ (op : Op) (s : IOState), s.bufCap ≤ (stepOp op s).bufCap) ∧
    (∀ (ops : List Op) (s : IOState), s.bufCap ≤ (runOps ops s).bufCap) ∧
    (∀ s : IOState, ((read_data s).2.1).bufCap = max s.bufCap s.header.PacketLen) :=
  ⟨bufCap_stepOp, fun ops s => bufCap_runOps ops s, bufCap_read_data⟩

/-- C7: when `read_next_header` fails with `FormatError` (bad sync pattern
or checksum mismatch at the cursor), the stream state — in particular the
cursor — is unchanged, so a subsequent `get_pos` reports the same offset as
before the failed read. -/
theorem read_next_header_format_error_preserves_cursor (s : IOState)
    (h : (read_next_header s).1 = Status.FormatError) :
    (read_next_header s).2 = s ∧
    get_pos (read_next_header s).2 = get_pos s := by
  have hs : (read_next_header s).2 = s := by
    simp only [read_next_header] at h ⊢
    split_ifs at h ⊢ <;> simp_all
  exact ⟨hs, by rw [hs]⟩

/-- C7 witness: on the concrete corrupt packet (valid sync, wrong checksum)
the read reports `FormatError` and the state and reported position are
untouched. -/
theorem read_next_header_format_error_preserves_cursor_witness :
    (read_next_header corruptState).1 = Status.FormatError ∧
    (read_next_header corruptState).2 = corruptState ∧
    get_pos (read_next_header corruptState).2 = get_pos corruptState :=
  ⟨by decide, read_next_header_format_error_preserves_cursor corruptState (by decide)⟩

/-- C8: on an open stream, `set_pos p` followed by `get_pos` returns exactly
`p` with status `OK`. -/
theorem set_pos_get_pos_roundtrip (s : IOState) (p : Nat) (h : s.isOpen = true) :
    get_pos (set_pos s p).2 = (Status.OK, p) := by
  simp [set_pos, get_pos, h]

/-- C8 witness: the round trip at offset 12345 on a concrete open stream. -/
theorem set_pos_get_pos_roundtrip_witness :
    seekState.isOpen = true ∧
    get_pos (set_pos seekState 12345).2 = (Status.OK, 12345) :=
  ⟨by decide, set_pos_get_pos_roundtrip seekState 12345 (by decide)⟩

/-- C2: for a stream whose current header was decoded from a valid packet
(`PacketLen` covers header plus payload) with the payload present in the
recording, `read_data` returns `OK`, reads exactly `DataLen` bytes — the
bytes immediately after the primary and optional secondary header — and
leaves the buffer's capacity at least `DataLen`, having grown it whenever
the old capacity was smaller than the required payload length. -/
theorem read_data_reads_exact_payload (s : IOState) (hOpen : s.isOpen = true)
    (hlen : headerLen s.header.PacketFlags + s.header.DataLen ≤ s.header.PacketLen)
    (hdata : s.pktStart + headerLen s.header.PacketFlags + s.header.DataLen ≤
      s.data.length) :
    (read_data s).1 = Status.OK ∧
    (read_data s).2.2 =
      (s.data.drop (s.pktStart + headerLen s.header.PacketFlags)).take
        s.header.DataLen ∧
    ((read_data s).2.2).length = s.header.DataLen ∧
    s.header.DataLen ≤ ((read_data s).2.1).bufCap ∧
    (s.bufCap < s.header.DataLen → s.bufCap < ((read_data s).2.1).bufCap) := by
  have hDP : s.header.DataLen ≤ s.header.PacketLen := le_trans (Nat.le_add_left _ _) hlen
  have hcap : ((read_data s).2.1).bufCap = max s.bufCap s.header.PacketLen :=
    bufCap_read_data s
  have key : read_data s =
      (Status.OK, (read_data s).2.1,
       (s.data.drop (s.pktStart + headerLen s.header.PacketFlags)).take
         s.header.DataLen) := by
    unfold read_data enI106Ch10ReadData
    simp only [hOpen, Bool.not_true, Bool.false_eq_true, if_false]
    split_ifs with hg h1 h2 <;> first | rfl | omega
  refine ⟨?_, ?_, ?_, ?_, ?_⟩
  · rw [show (read_data s).1 = (read_data s).1 from rfl, key]
  · rw [key]
  · rw [key]
    simp only [List.length_take, List.length_drop]
    omega
  · rw [hcap]
    omega
  · intro hlt
    rw [hcap]
    omega

/-- C2 witness: the concrete one-packet stream (`PacketLen = 28`,
`DataLen = 4`, no secondary header, payload `[10, 20, 30, 40]`). -/
theorem read_data_reads_exact_payload_witness :
    (payloadState.isOpen = true ∧
     headerLen payloadState.header.PacketFlags + payloadState.header.DataLen ≤
       payloadState.header.PacketLen ∧
     payloadState.pktStart + headerLen payloadState.header.PacketFlags +
       payloadState.header.DataLen ≤ payloadState.data.length) ∧
    ((read_data payloadState).1 = Status.OK ∧
     (read_data payloadState).2.2 =
       (payloadState.data.drop
         (payloadState.pktStart + headerLen payloadState.header.PacketFlags)).take
         payloadState.header.DataLen ∧
     ((read_data payloadState).2.2).length = payloadState.header.DataLen ∧
     payloadState.header.DataLen ≤ ((read_data payloadState).2.1).bufCap ∧
     (payloadState.bufCap < payloadState.header.DataLen →
       payloadState.bufCap < ((read_data payloadState).2.1).bufCap)) :=
  ⟨⟨by decide, by decide, by decide⟩,
   read_data_reads_exact_payload payloadState (by decide) (by decide) (by decide)⟩

/-- C9 counterexample: `open` with the one-character file name "é" (code
point 233) raises `UnicodeEncodeError` out of `file_name.encode('ascii')`
instead of returning a status. -/
theorem open_nonascii_raises_counterexample :
    openStream [] freshState [233] FileMode.READ = Except.error () ∧
    I106_Ch10Open [] [233] FileMode.READ = Except.error () ∧
    (∀ r, openStream [] freshState [233] FileMode.READ ≠ Except.ok r) := by
  refine ⟨rfl, rfl, fun r h => ?_⟩
  rw [show openStream [] freshState [233] FileMode.READ = Except.error () from rfl] at h
  exact Except.noConfusion h

/-- C9 (amended): every core operation returns a status to the caller —
`open` returns a status, rather than raising, for every ASCII-encodable
file name (non-ASCII names raise `UnicodeEncodeError`), and the remaining
core operations are total functions returning a status. -/
theorem open_ascii_returns_status (fs : List (List Nat × List Nat))
    (s : IOState) (name : List Nat) (mode p : Nat)
    (h : ∀ c ∈ name, c < 128) :
    (∃ r, openStream fs s name mode = Except.ok r) ∧
    (∃ r, I106_Ch10Open fs name mode = Except.ok r) ∧
    (∃ r, read_next_header s = r) ∧
    (∃ r, read_prev_header s = r) ∧
    (∃ r, read_data s = r) ∧
    (∃ r, first s = r) ∧
    (∃ r, last s = r) ∧
    (∃ r, set_pos s p = r) ∧
    (∃ r, get_pos s = r) ∧
    (∃ r, close s = r) := by
  have henc : encodeAscii name = Except.ok name := by
    unfold encodeAscii
    rw [if_pos]
    exact List.all_eq_true.mpr fun c hc => decide_eq_true (h c hc)
  have hI : I106_Ch10Open fs name mode = Except.ok (enI106Ch10Open fs name mode) := by
    unfold I106_Ch10Open
    rw [henc]
  have hO : openStream fs s name mode =
      Except.ok ((enI106Ch10Open fs name mode).1,
        { s with isOpen := (enI106Ch10Open fs name mode).2.1,
                 data := (enI106Ch10Open fs name mode).2.2,
                 cursor := 0, pktStart := 0 }) := by
    unfold openStream
    rw [hI]
  exact ⟨⟨_, hO⟩, ⟨_, hI⟩, ⟨_, rfl⟩, ⟨_, rfl⟩, ⟨_, rfl⟩, ⟨_, rfl⟩, ⟨_, rfl⟩,
    ⟨_, rfl⟩, ⟨_, rfl⟩, ⟨_, rfl⟩⟩

/-- C9 witness: opening the ASCII name "hi" and running every core
operation on the fresh stream returns statuses. -/
theorem open_ascii_returns_status_witness :
    (∀ c ∈ [104, 105], c < 128) ∧
    ((∃ r, openStream [] freshState [104, 105] FileMode.READ = Except.ok r) ∧
     (∃ r, I106_Ch10Open [] [104, 105] FileMode.READ = Except.ok r) ∧
     (∃ r, read_next_header freshState = r) ∧
     (∃ r, read_prev_header freshState = r) ∧
     (∃ r, read_data freshState = r) ∧
     (∃ r, first freshState = r) ∧
     (∃ r, last freshState = r) ∧
     (∃ r, set_pos freshState 0 = r) ∧
     (∃ r, get_pos freshState = r) ∧
     (∃ r, close freshState = r)) :=
  ⟨by decide,
   open_ascii_returns_status [] freshState [104, 105] FileMode.READ 0 (by decide)⟩

end Py106
